import Mathlib

/-!
Verification of the Canvas MCP API client (`src/canvas-api.ts`).

The TypeScript client is shallowly embedded: JSON payloads become the
inductive `Value`, the axios transport becomes an explicit oracle function
passed to each operation, thrown JS values become the inductive `JsThrown`,
and the pagination loop becomes a fuel-indexed recursion that additionally
records the trace of requests it issues.  Every definition below is
translated from the source file it names, except `downloadFile`, which is
absent from the sources (only its caller in `src/index.ts` remains) and is
modelled from the specification.
-/

namespace CanvasMCP

/-- JSON-compatible payload values, as moved opaquely by the client. -/
inductive Value where
  | vnull : Value
  | vbool : Bool → Value
  | vnum : Int → Value
  | vstr : String → Value
  | varr : List Value → Value
  | vobj : List (String × Value) → Value

/-- One character of JSON string escaping, as `JSON.stringify` performs it
(restricted to the escapes exercised here; `\uXXXX` control escapes are not
modelled). -/
def escapeChar (c : Char) : String :=
  if c = '"' then "\\\""
  else if c = '\\' then "\\\\"
  else if c = '\n' then "\\n"
  else if c = '\t' then "\\t"
  else if c = '\r' then "\\r"
  else String.singleton c

/-- JSON string-body escaping. -/
def escapeStr (s : String) : String :=
  s.data.foldl (fun acc c => acc ++ escapeChar c) ""

mutual

/-- Serialization `JSON.stringify` on a payload value (compact form, the default used at
`canvas-api.ts:98`). -/
def stringify : Value → String
  | Value.vnull => "null"
  | Value.vbool b => cond b "true" "false"
  | Value.vnum n => toString n
  | Value.vstr s => "\"" ++ escapeStr s ++ "\""
  | Value.varr xs => "[" ++ stringifyArr xs ++ "]"
  | Value.vobj fs => "\x7b" ++ stringifyObj fs ++ "\x7d"

/-- Comma-separated serialization of an array body. -/
def stringifyArr : List Value → String
  | [] => ""
  | [v] => stringify v
  | v :: rest => stringify v ++ "," ++ stringifyArr rest

/-- Comma-separated serialization of an object body. -/
def stringifyObj : List (String × Value) → String
  | [] => ""
  | [kv] => "\"" ++ escapeStr kv.1 ++ "\":" ++ stringify kv.2
  | kv :: rest => "\"" ++ escapeStr kv.1 ++ "\":" ++ stringify kv.2 ++ "," ++ stringifyObj rest

end

/-- Whitespace as matched by the regex class `\s` (ASCII cases). -/
def isJsSpace (c : Char) : Bool :=
  c = ' ' || c = '\t' || c = '\n' || c = '\r' || c = '\x0b' || c = '\x0c'

/-- Skip leading `\s*` characters. -/
def dropSpaces : List Char → List Char
  | [] => []
  | c :: cs => if isJsSpace c then dropSpaces cs else c :: cs

/-- Literal-prefix test on character lists. -/
def startsWithChars : List Char → List Char → Bool
  | [], _ => true
  | _ :: _, [] => false
  | p :: ps, c :: cs => p = c && startsWithChars ps cs

/-- The literal tail of the pattern in `parseNextLink`. -/
def relNextPat : List Char := "rel=\"next\"".data

/-- Attempt the regex `<([^>]+)>;\s*rel="next"` at the head of the input,
returning the capture group.  Because `[^>]+` cannot cross a `>` and is
followed by a literal `>`, the regex is deterministic at a given start
position: the capture is exactly the run up to the first `>`. -/
def matchFrom (cs : List Char) : Option (List Char) :=
  match cs with
  | '<' :: rest =>
    let url := rest.takeWhile (fun c => c ≠ '>')
    match rest.dropWhile (fun c => c ≠ '>') with
    | '>' :: ';' :: tail =>
      if url = [] then none
      else if startsWithChars relNextPat (dropSpaces tail) then some url
      else none
    | _ => none
  | _ => none

/-- Leftmost-first regex search, as `String.prototype.match` performs it. -/
def searchNext : List Char → Option (List Char)
  | [] => none
  | c :: cs =>
    match matchFrom (c :: cs) with
    | some url => some url
    | none => searchNext cs

/-- Function `parseNextLink` (`canvas-api.ts:27-31`): `undefined` and the empty
string are falsy and yield `null`; otherwise the first match of
`<([^>]+)>;\s*rel="next"` yields its capture group. -/
def parseNextLink (linkHeader : Option String) : Option String :=
  match linkHeader with
  | none => none
  | some s => if s = "" then none else (searchNext s.data).map (fun cs => String.mk cs)

/-- The HTTP response attached to an `AxiosError` when one was received. -/
structure ErrResponse where
  status : Nat
  data : Value

/-- A thrown JS value as `handleError` discriminates it: an `AxiosError`
(with or without a response), another `Error` instance, or a non-`Error`
value already coerced by `String(err)`. -/
inductive JsThrown where
  | axiosErr : Option ErrResponse → String → JsThrown
  | jsError : String → JsThrown
  | nonError : String → JsThrown

/-- Interpolation of `err.response?.status` into a template literal:
`undefined` prints as the string `undefined`. -/
def statusText : Option Nat → String
  | none => "undefined"
  | some n => Nat.repr n

/-- Interpolation of `JSON.stringify(err.response?.data)`: when the
response is absent, `JSON.stringify(undefined)` is `undefined` and prints
as the string `undefined`. -/
def dataText : Option Value → String
  | none => "undefined"
  | some v => stringify v

def unauthorizedMsg : String := "Canvas API: Unauthorized — check your API token"

def forbiddenMsg : String := "Canvas API: Forbidden — you don\x27t have access to this resource"

def notFoundMsg : String := "Canvas API: Not found — check the course/assignment ID"

def rateLimitedMsg : String := "Canvas API: Rate limited — try again in a moment"

/-- Function `handleError` (`canvas-api.ts:90-101`), returning the message of the
`Error` it constructs (or forwards). -/
def handleError (err : JsThrown) : String :=
  match err with
  | JsThrown.axiosErr resp _ =>
    let status := resp.map ErrResponse.status
    let data := resp.map ErrResponse.data
    if status = some 401 then unauthorizedMsg
    else if status = some 403 then forbiddenMsg
    else if status = some 404 then notFoundMsg
    else if status = some 429 then rateLimitedMsg
    else "Canvas API error " ++ statusText status ++ ": " ++ dataText data
  | JsThrown.jsError m => m
  | JsThrown.nonError s => s

/-- Association-list lookup on string-keyed records (first match wins, as
property access on a JS object with unique keys). -/
def lookupKey {α : Type} : List (String × α) → String → Option α
  | [], _ => none
  | kv :: rest, k => if kv.1 = k then some kv.2 else lookupKey rest k

/-- Writing one property into an object during spread evaluation: an
existing key keeps its position and gets the new value, a fresh key is
appended. -/
def setKey {α : Type} : List (String × α) → String × α → List (String × α)
  | [], kv => [kv]
  | kv' :: rest, kv => if kv'.1 = kv.1 then (kv'.1, kv.2) :: rest else kv' :: setKey rest kv

/-- Evaluation of an object literal `\x7b ...base, ...src \x7d`: the
properties of `src` are written into `base` in order. -/
def spreadInto {α : Type} (base src : List (String × α)) : List (String × α) :=
  src.foldl setKey base

/-- The query parameters of the initial paginated request
(`canvas-api.ts:46`): the object literal `\x7b per_page: 100, ...params \x7d`. -/
def initialParams (params : List (String × Value)) : List (String × Value) :=
  spreadInto [("per_page", Value.vnum 100)] params

/-- One HTTP GET as issued by the pagination loop: a target (path or
absolute URL) and the query parameters passed alongside it. -/
structure Req where
  url : String
  params : List (String × Value)

/-- One successful paginated response: the array body and the `link`
response header (absent when the service sent none). -/
structure Page where
  data : List Value
  link : Option String

/-- Outcome of one GET round-trip: a response page, or a thrown failure. -/
inductive FetchResult where
  | ok : Page → FetchResult
  | err : JsThrown → FetchResult

/-- The `while (nextUrl)` loop of `getPaginated` (`canvas-api.ts:51-55`),
with explicit fuel (the source loop is unbounded; `none` means the fuel ran
out before the loop did).  Alongside the outcome it records the trace of
requests issued; follow-up GETs carry the parsed URL and no query
parameters, as `this.client.get(nextUrl)` does. -/
def getPaginatedGo (server : Req → FetchResult) :
    Nat → List Value → List Req → Option String → Option (Except String (List Value) × List Req)
  | _, acc, reqs, none => some (Except.ok acc, reqs)
  | 0, _, _, some _ => none
  | fuel + 1, acc, reqs, some u =>
    match server ⟨u, []⟩ with
    | FetchResult.err e => some (Except.error (handleError e), reqs ++ [⟨u, []⟩])
    | FetchResult.ok p =>
      getPaginatedGo server fuel (acc ++ p.data) (reqs ++ [⟨u, []⟩]) (parseNextLink p.link)

/-- Function `getPaginated` (`canvas-api.ts:42-60`): the initial GET to `path` with
`per_page: 100` spread under the caller's params, then the follow-up loop.
Any thrown failure is classified by `handleError` and re-thrown
(`Except.error`); the accumulated partial results are abandoned. -/
def getPaginated (server : Req → FetchResult) (path : String)
    (params : List (String × Value)) (fuel : Nat) :
    Option (Except String (List Value) × List Req) :=
  match server ⟨path, initialParams params⟩ with
  | FetchResult.err e => some (Except.error (handleError e), [⟨path, initialParams params⟩])
  | FetchResult.ok p =>
    getPaginatedGo server fuel p.data [⟨path, initialParams params⟩] (parseNextLink p.link)

/-- The links from one fetched page through a list of further pages: each
page's `link` header parses to a `next` URL served as the following page,
and the last page's header parses to no `next` URL. -/
def chainFrom (server : Req → FetchResult) : Page → List Page → Prop
  | p, [] => parseNextLink p.link = none
  | p, q :: rest =>
    ∃ u, parseNextLink p.link = some u ∧ server ⟨u, []⟩ = FetchResult.ok q ∧
      chainFrom server q rest

/-- The links from one fetched page through a list of further good pages,
after which the next request fails. -/
def failsAfter (server : Req → FetchResult) : Page → List Page → Prop
  | p, [] => ∃ u e, parseNextLink p.link = some u ∧ server ⟨u, []⟩ = FetchResult.err e
  | p, q :: rest =>
    ∃ u, parseNextLink p.link = some u ∧ server ⟨u, []⟩ = FetchResult.ok q ∧
      failsAfter server q rest

/-- A process environment, as `process.env` reads: a partial map from
variable names to string values. -/
def EnvMap : Type := String → Option String

/-- The immutable state captured by `axios.create` in the constructor: the
base URL and the default `Authorization` header attached to every request
the created client issues. -/
structure Config where
  baseURL : String
  authHeader : String

/-- JS falsiness of a `string | undefined`: `undefined` and the empty
string are falsy, every other string is truthy. -/
def falsyStr : Option String → Bool
  | none => true
  | some s => s = ""

def configErrMsg : String :=
  "CANVAS_API_TOKEN and CANVAS_BASE_URL environment variables are required"

/-- The `CanvasAPI` constructor (`canvas-api.ts:9-25`): reads both
environment variables, throws when `!token || !baseURL`, and otherwise
captures the base URL and the `Bearer` authorization header.  It performs
no network request. -/
def constructClient (env : EnvMap) : Except String Config :=
  if falsyStr (env "CANVAS_API_TOKEN") || falsyStr (env "CANVAS_BASE_URL") then
    Except.error configErrMsg
  else
    Except.ok ⟨(env "CANVAS_BASE_URL").getD "",
      "Bearer " ++ (env "CANVAS_API_TOKEN").getD ""⟩

/-- One field of a multipart form body: its field name, its value (form
value or file content), and the attached filename when one was given. -/
structure PartField where
  name : String
  value : String
  filename : Option String

/-- The single POST issued by `uploadFile`: target URL, multipart fields in
append order, request headers, and the `maxRedirects` option. -/
structure PostReq where
  url : String
  fields : List PartField
  headers : List (String × String)
  maxRedirects : Nat

/-- Outcome of the upload POST before `validateStatus` is applied: a
response with a status and parsed body, or a transport failure (which axios
raises as an `AxiosError` without a response). -/
inductive PostOutcome where
  | response : Nat → Value → PostOutcome
  | netFail : String → PostOutcome

/-- Headers from `form.getHeaders()` (`form-data`): the multipart content type.  The
dynamic boundary is abbreviated; what matters is that no `Authorization`
header is present. -/
def formHeaders : List (String × String) :=
  [("content-type", "multipart/form-data; boundary=canvas")]

/-- Node `path.basename`: the last `/`-separated component (the longest suffix
free of `/`; Node's trimming of a trailing separator is not exercised
here). -/
def basename (p : String) : String :=
  String.mk ((p.data.reverse.takeWhile (fun c => c ≠ '/')).reverse)

/-- The `for (const [key, value] of Object.entries(uploadParams))` loop
(`canvas-api.ts:73-75`): append each parameter as a plain form field. -/
def appendFields (form : List PartField) (ps : List (String × String)) : List PartField :=
  ps.foldl (fun f kv => f ++ [⟨kv.1, kv.2, none⟩]) form

/-- The multipart body built by `uploadFile`: the parameter fields in
mapping order, then the file content as the field named `file` with the
file's base name as attached filename (`canvas-api.ts:72-76`). -/
def uploadForm (uploadParams : List (String × String)) (filePath fileContent : String) :
    List PartField :=
  appendFields [] uploadParams ++ [⟨"file", fileContent, some (basename filePath)⟩]

/-- The one request `uploadFile` issues (`canvas-api.ts:79-83`): a POST
directly to `uploadUrl` through bare `axios.post` (so only the form's own
headers, no bearer token), with `maxRedirects: 0`. -/
def uploadReq (uploadUrl : String) (uploadParams : List (String × String))
    (filePath fileContent : String) : PostReq :=
  ⟨uploadUrl, uploadForm uploadParams filePath fileContent, formHeaders, 0⟩

/-- Function `uploadFile` (`canvas-api.ts:71-88`): issue the POST; `validateStatus:
status < 400` resolves any response below 400 (a redirect, unfollowed
because `maxRedirects: 0`, included) with its parsed body, and raises an
`AxiosError` carrying the response otherwise; a transport failure raises an
`AxiosError` without a response.  Failures pass through `handleError`.  The
request trace is returned alongside the outcome. -/
def uploadFile (server : PostReq → PostOutcome) (uploadUrl : String)
    (uploadParams : List (String × String)) (filePath fileContent : String) :
    Except String Value × List PostReq :=
  match server (uploadReq uploadUrl uploadParams filePath fileContent) with
  | PostOutcome.netFail m =>
    (Except.error (handleError (JsThrown.axiosErr none m)),
      [uploadReq uploadUrl uploadParams filePath fileContent])
  | PostOutcome.response status data =>
    if status < 400 then
      (Except.ok data, [uploadReq uploadUrl uploadParams filePath fileContent])
    else
      (Except.error (handleError (JsThrown.axiosErr (some ⟨status, data⟩) "")),
        [uploadReq uploadUrl uploadParams filePath fileContent])

/-- A local filesystem as a map from paths to byte contents. -/
def FS : Type := String → Option (List Nat)

/-- Modelled from the spec: `downloadFile(remoteUrl, localDestinationPath)`
is called at `src/index.ts:363` but its definition is absent from the
sources under `src/`; per the spec it streams the GET response body for the
remote URL to the destination path, creating or overwriting the
destination, and propagates any failure through the same classification as
ordinary requests (`handleError`). -/
def downloadFile (server : String → Except JsThrown (List Nat)) (fs : FS)
    (url dest : String) : Except String FS :=
  match server url with
  | Except.error e => Except.error (handleError e)
  | Except.ok bytes => Except.ok (fun p => if p = dest then some bytes else fs p)

/-! Concrete fixtures used by the witness theorems below. -/

/-- A service serving a two-page listing: the initial path yields two items
and a `next` link, the follow-up URL yields one item and no link. -/
def chainServer : Req → FetchResult := fun r =>
  if r.url = "P2" then FetchResult.ok ⟨[Value.vnum 3], none⟩
  else FetchResult.ok ⟨[Value.vnum 1, Value.vnum 2], some "<P2>; rel=\"next\""⟩

/-- A service that refuses the initial request. -/
def failServer0 : Req → FetchResult := fun _ =>
  FetchResult.err (JsThrown.axiosErr (some ⟨500, Value.vnull⟩) "")

/-- A service whose first page links onward but whose second request
fails. -/
def chainFailServer : Req → FetchResult := fun r =>
  if r.url = "P2" then FetchResult.err (JsThrown.axiosErr none "socket hang up")
  else FetchResult.ok ⟨[Value.vnum 1], some "<P2>; rel=\"next\""⟩

/-- A service serving a single page without a `next` relation. -/
def oneServer : Req → FetchResult := fun _ => FetchResult.ok ⟨[Value.vnum 7], none⟩

/-- A service whose first page carries the spec's example `link` header. -/
def twoServer : Req → FetchResult := fun r =>
  if r.url = "https://x/y?page=2" then FetchResult.ok ⟨[Value.vnum 9], none⟩
  else FetchResult.ok ⟨[Value.vnum 8], some "<https://x/y?page=2>; rel=\"next\""⟩

/-- The first page served by `chainServer`. -/
def pageA : Page := ⟨[Value.vnum 1, Value.vnum 2], some "<P2>; rel=\"next\""⟩

/-- The second page served by `chainServer`. -/
def pageB : Page := ⟨[Value.vnum 3], none⟩

/-- Caller parameters exercising the merge: an ordinary key and an explicit
`per_page`. -/
def mergeParams : List (String × Value) :=
  [("include", Value.vstr "term"), ("per_page", Value.vnum 50)]

/-- A remote file server producing five bytes. -/
def dlServerOk : String → Except JsThrown (List Nat) := fun _ => Except.ok [1, 2, 3, 4, 5]

/-- A remote file server that fails with an HTTP 404. -/
def dlServerBad : String → Except JsThrown (List Nat) := fun _ =>
  Except.error (JsThrown.axiosErr (some ⟨404, Value.vnull⟩) "")

/-- A starting filesystem with one unrelated file. -/
def dlFs : FS := fun p => if p = "/tmp/other" then some [9] else none

/-- An upload target answering with the service's 3xx success response. -/
def upServerOk : PostReq → PostOutcome := fun _ => PostOutcome.response 303 (Value.vstr "created")

/-- An upload target rejecting the form. -/
def upServerBad : PostReq → PostOutcome := fun _ => PostOutcome.response 422 (Value.vstr "bad")

/-- An environment lacking the token variable. -/
def envMissing : EnvMap := fun k => if k = "CANVAS_BASE_URL" then some "https://c.example" else none

/-- An environment with both variables set to non-empty values. -/
def envGood : EnvMap := fun k =>
  if k = "CANVAS_API_TOKEN" then some "tok123"
  else if k = "CANVAS_BASE_URL" then some "https://c.example" else none

/-- An environment where the token variable is present but empty. -/
def envEmptyTok : EnvMap := fun k =>
  if k = "CANVAS_API_TOKEN" then some ""
  else if k = "CANVAS_BASE_URL" then some "https://c.example" else none

/-- An environment where the base-URL variable is present but empty. -/
def envEmptyBase : EnvMap := fun k =>
  if k = "CANVAS_API_TOKEN" then some "tok123"
  else if k = "CANVAS_BASE_URL" then some "" else none

/-! Helper lemmas. -/

theorem str_append_data (a b : String) : (a ++ b).data = a.data ++ b.data := rfl

theorem digitChar_isDigit : ∀ m, m < 10 → (Nat.digitChar m).isDigit = true := by decide

theorem mem_toDigitsCore :
    ∀ (fuel n : Nat) (ds : List Char) (c : Char),
      c ∈ Nat.toDigitsCore 10 fuel n ds → c.isDigit = true ∨ c ∈ ds := by
  intro fuel
  induction fuel with
  | zero => intro n ds c h; exact Or.inr h
  | succ fuel ih =>
    intro n ds c h
    rw [Nat.toDigitsCore] at h
    by_cases h10 : n / 10 = 0
    · rw [if_pos h10] at h
      rcases List.mem_cons.mp h with hc | hc
      · exact Or.inl (hc ▸ digitChar_isDigit (n % 10) (Nat.mod_lt n (by omega)))
      · exact Or.inr hc
    · rw [if_neg h10] at h
      rcases ih (n / 10) (Nat.digitChar (n % 10) :: ds) c h with hd | hc
      · exact Or.inl hd
      · rcases List.mem_cons.mp hc with hc' | hc'
        · exact Or.inl (hc' ▸ digitChar_isDigit (n % 10) (Nat.mod_lt n (by omega)))
        · exact Or.inr hc'

theorem toDigitsCore_ne_nil :
    ∀ (fuel n : Nat) (ds : List Char), ds ≠ [] → Nat.toDigitsCore 10 fuel n ds ≠ [] := by
  intro fuel
  induction fuel with
  | zero => intro n ds h; exact h
  | succ fuel ih =>
    intro n ds h
    rw [Nat.toDigitsCore]
    by_cases h10 : n / 10 = 0
    · rw [if_pos h10]; exact List.cons_ne_nil _ _
    · rw [if_neg h10]; exact ih (n / 10) _ (List.cons_ne_nil _ _)

theorem repr_data_ne_nil (n : Nat) : (Nat.repr n).data ≠ [] := by
  show Nat.toDigits 10 n ≠ []
  rw [Nat.toDigits, Nat.toDigitsCore]
  by_cases h10 : n / 10 = 0
  · rw [if_pos h10]; exact List.cons_ne_nil _ _
  · rw [if_neg h10]; exact toDigitsCore_ne_nil n (n / 10) _ (List.cons_ne_nil _ _)

theorem repr_head_digit (n : Nat) (c : Char) :
    (Nat.repr n).data.head? = some c → c.isDigit = true := by
  intro h
  have hmem : c ∈ (Nat.repr n).data := by
    cases hd : (Nat.repr n).data with
    | nil => rw [hd] at h; simp at h
    | cons a t =>
      rw [hd] at h
      simp only [List.head?_cons, Option.some.injEq] at h
      exact h ▸ List.mem_cons_self a t
  have : c ∈ Nat.toDigitsCore 10 (n + 1) n [] := hmem
  rcases mem_toDigitsCore (n + 1) n [] c this with hd | hc
  · exact hd
  · simp at hc

theorem getPaginatedGo_chain (server : Req → FetchResult) :
    ∀ (ps : List Page) (p : Page) (fuel : Nat) (acc : List Value) (reqs : List Req),
      chainFrom server p ps → ps.length ≤ fuel →
      ∃ tr, getPaginatedGo server fuel acc reqs (parseNextLink p.link)
        = some (Except.ok (acc ++ (ps.map Page.data).flatten), tr) := by
  intro ps
  induction ps with
  | nil =>
    intro p fuel acc reqs hch _
    have hn : parseNextLink p.link = none := hch
    refine ⟨reqs, ?_⟩
    rw [hn]
    simp [getPaginatedGo]
  | cons q rest ih =>
    intro p fuel acc reqs hch hlen
    obtain ⟨u, hu, hq, hrest⟩ := hch
    match fuel with
    | 0 => simp at hlen
    | fuel + 1 =>
      rw [hu]
      obtain ⟨tr, htr⟩ := ih q fuel (acc ++ q.data) (reqs ++ [⟨u, []⟩]) hrest
        (by simp only [List.length_cons] at hlen; omega)
      refine ⟨tr, ?_⟩
      rw [getPaginatedGo, hq]
      show getPaginatedGo server fuel (acc ++ q.data) (reqs ++ [⟨u, []⟩]) (parseNextLink q.link)
        = _
      rw [htr]
      simp [List.append_assoc]

theorem getPaginatedGo_fails (server : Req → FetchResult) :
    ∀ (ps : List Page) (p : Page) (fuel : Nat) (acc : List Value) (reqs : List Req),
      failsAfter server p ps → ps.length < fuel →
      ∃ e tr, getPaginatedGo server fuel acc reqs (parseNextLink p.link)
        = some (Except.error (handleError e), tr) := by
  intro ps
  induction ps with
  | nil =>
    intro p fuel acc reqs hch hlen
    obtain ⟨u, e, hu, he⟩ := hch
    match fuel with
    | 0 => simp at hlen
    | fuel + 1 =>
      rw [hu]
      refine ⟨e, reqs ++ [⟨u, []⟩], ?_⟩
      rw [getPaginatedGo, he]
  | cons q rest ih =>
    intro p fuel acc reqs hch hlen
    obtain ⟨u, hu, hq, hrest⟩ := hch
    match fuel with
    | 0 => simp at hlen
    | fuel + 1 =>
      rw [hu]
      obtain ⟨e, tr, htr⟩ := ih q fuel (acc ++ q.data) (reqs ++ [⟨u, []⟩]) hrest
        (by simp only [List.length_cons] at hlen; omega)
      refine ⟨e, tr, ?_⟩
      rw [getPaginatedGo, hq]
      show getPaginatedGo server fuel (acc ++ q.data) (reqs ++ [⟨u, []⟩]) (parseNextLink q.link)
        = _
      rw [htr]

theorem getPaginatedGo_extends (server : Req → FetchResult) :
    ∀ (fuel : Nat) (acc : List Value) (reqs : List Req) (nextUrl : Option String)
      (o : Except String (List Value)) (tr : List Req),
      getPaginatedGo server fuel acc reqs nextUrl = some (o, tr) → ∃ ext, tr = reqs ++ ext := by
  intro fuel
  induction fuel with
  | zero =>
    intro acc reqs nextUrl o tr h
    cases nextUrl with
    | none =>
      rw [getPaginatedGo] at h
      exact ⟨[], by simpa using (congrArg Prod.snd (Option.some.inj h)).symm⟩
    | some u => rw [getPaginatedGo] at h; exact absurd h (by simp)
  | succ fuel ih =>
    intro acc reqs nextUrl o tr h
    cases nextUrl with
    | none =>
      rw [getPaginatedGo] at h
      exact ⟨[], by simpa using (congrArg Prod.snd (Option.some.inj h)).symm⟩
    | some u =>
      rw [getPaginatedGo] at h
      cases hs : server ⟨u, []⟩ with
      | err e =>
        rw [hs] at h
        exact ⟨[⟨u, []⟩], (congrArg Prod.snd (Option.some.inj h)).symm⟩
      | ok p =>
        rw [hs] at h
        obtain ⟨ext, hext⟩ := ih (acc ++ p.data) (reqs ++ [⟨u, []⟩]) (parseNextLink p.link) o tr h
        exact ⟨⟨u, []⟩ :: ext, by rw [hext, List.append_assoc]; rfl⟩

theorem lookupKey_setKey_self {α : Type} (base : List (String × α)) (k : String) (v : α) :
    lookupKey (setKey base (k, v)) k = some v := by
  induction base with
  | nil => simp [setKey, lookupKey]
  | cons kv' rest ih =>
    by_cases hk : kv'.1 = k
    · simp [setKey, hk, lookupKey]
    · simp [setKey, hk, lookupKey, ih]

theorem lookupKey_setKey_other {α : Type} (base : List (String × α)) (k k' : String) (v : α)
    (h : k' ≠ k) : lookupKey (setKey base (k, v)) k' = lookupKey base k' := by
  induction base with
  | nil =>
    simp only [setKey, lookupKey]
    rw [if_neg (fun he : k = k' => h he.symm)]
  | cons kv' rest ih =>
    by_cases hk : kv'.1 = k
    · have hne : ¬kv'.1 = k' := fun he => h (by rw [← he, hk])
      simp only [setKey, if_pos hk, lookupKey]
      rw [if_neg hne, if_neg hne]
    · simp only [setKey, if_neg hk, lookupKey]
      by_cases hk' : kv'.1 = k'
      · rw [if_pos hk', if_pos hk']
      · rw [if_neg hk', if_neg hk', ih]

theorem lookupKey_spreadInto_notmem {α : Type} :
    ∀ (src base : List (String × α)) (k : String), k ∉ src.map Prod.fst →
      lookupKey (spreadInto base src) k = lookupKey base k := by
  intro src
  induction src with
  | nil => intro base k _; rfl
  | cons kv rest ih =>
    intro base k hk
    simp only [List.map_cons, List.mem_cons] at hk
    push_neg at hk
    have h1 : lookupKey (spreadInto (setKey base kv) rest) k = lookupKey (setKey base kv) k :=
      ih (setKey base kv) k hk.2
    have h2 : lookupKey (setKey base kv) k = lookupKey base k :=
      lookupKey_setKey_other base kv.1 k kv.2 hk.1
    exact h1.trans h2

theorem lookupKey_spreadInto_mem {α : Type} :
    ∀ (src base : List (String × α)) (k : String) (v : α), (k, v) ∈ src →
      (src.map Prod.fst).Nodup → lookupKey (spreadInto base src) k = some v := by
  intro src
  induction src with
  | nil => intro base k v h; simp at h
  | cons kv rest ih =>
    intro base k v hmem hnd
    simp only [List.map_cons, List.nodup_cons] at hnd
    rcases List.mem_cons.mp hmem with heq | hrest
    · have hk : kv.1 = k := by rw [← heq]
      have hnot : k ∉ rest.map Prod.fst := hk ▸ hnd.1
      have h1 : lookupKey (spreadInto (setKey base kv) rest) k = lookupKey (setKey base kv) k :=
        lookupKey_spreadInto_notmem rest (setKey base kv) k hnot
      have h2 : setKey base kv = setKey base (k, v) := by rw [← heq]
      rw [show spreadInto base (kv :: rest) = spreadInto (setKey base kv) rest from rfl,
        h1, h2, lookupKey_setKey_self]
    · exact ih (setKey base kv) k v hrest hnd.2

theorem lookupKey_eq_none_iff {α : Type} :
    ∀ (ps : List (String × α)) (k : String), lookupKey ps k = none ↔ k ∉ ps.map Prod.fst := by
  intro ps
  induction ps with
  | nil => intro k; simp [lookupKey]
  | cons kv rest ih =>
    intro k
    constructor
    · intro hnone
      simp only [lookupKey] at hnone
      by_cases hk : kv.1 = k
      · rw [if_pos hk] at hnone; exact absurd hnone (by simp)
      · rw [if_neg hk] at hnone
        simp only [List.map_cons, List.mem_cons]
        push_neg
        exact ⟨fun he => hk he.symm, (ih k).mp hnone⟩
    · intro hnot
      simp only [List.map_cons, List.mem_cons] at hnot
      push_neg at hnot
      simp only [lookupKey, if_neg (fun he : kv.1 = k => hnot.1 he.symm)]
      exact (ih k).mpr hnot.2

theorem appendFields_eq_map :
    ∀ (ps : List (String × String)) (form : List PartField),
      appendFields form ps = form ++ ps.map (fun kv => PartField.mk kv.1 kv.2 none) := by
  intro ps
  induction ps with
  | nil => intro form; simp [appendFields]
  | cons kv rest ih =>
    intro form
    rw [show appendFields form (kv :: rest)
        = appendFields (form ++ [⟨kv.1, kv.2, none⟩]) rest from rfl, ih]
    simp

theorem getPaginatedGo_second (server : Req → FetchResult) (fuel : Nat) (acc : List Value)
    (reqs : List Req) (u : String) (o : Except String (List Value)) (tr : List Req)
    (h : getPaginatedGo server fuel acc reqs (some u) = some (o, tr)) :
    ∃ ext, tr = reqs ++ ⟨u, []⟩ :: ext := by
  match fuel with
  | 0 => rw [getPaginatedGo] at h; exact absurd h (by simp)
  | fuel + 1 =>
    rw [getPaginatedGo] at h
    cases hs : server ⟨u, []⟩ with
    | err e =>
      rw [hs] at h
      change some (Except.error (handleError e), reqs ++ [⟨u, []⟩]) = some (o, tr) at h
      exact ⟨[], by simpa using (congrArg Prod.snd (Option.some.inj h)).symm⟩
    | ok p =>
      rw [hs] at h
      change getPaginatedGo server fuel (acc ++ p.data) (reqs ++ [⟨u, []⟩])
        (parseNextLink p.link) = some (o, tr) at h
      obtain ⟨ext, hext⟩ := getPaginatedGo_extends server fuel _ _ _ o tr h
      exact ⟨ext, by rw [hext]; simp⟩

/-! Claim theorems. -/

/-- C1: for every sequence of paginated responses in which each page carries
a list of items and the last page's link header has no `next` relation,
`getPaginated` returns the concatenation of every page's items in the order
the pages were fetched and the items appeared within each page — no item
skipped or duplicated — and its length equals the sum of the per-page item
counts. -/
theorem getPaginated_returns_all_pages (server : Req → FetchResult) (path : String)
    (params : List (String × Value)) (fuel : Nat) (p : Page) (ps : List Page)
    (h0 : server ⟨path, initialParams params⟩ = FetchResult.ok p)
    (hch : chainFrom server p ps) (hfuel : ps.length ≤ fuel) :
    (∃ tr, getPaginated server path params fuel
        = some (Except.ok (((p :: ps).map Page.data).flatten), tr))
    ∧ (((p :: ps).map Page.data).flatten).length
        = ((p :: ps).map (fun q => q.data.length)).sum := by
  constructor
  · obtain ⟨tr, htr⟩ :=
      getPaginatedGo_chain server ps p fuel p.data [⟨path, initialParams params⟩] hch hfuel
    refine ⟨tr, ?_⟩
    rw [getPaginated, h0]
    change getPaginatedGo server fuel p.data [⟨path, initialParams params⟩]
      (parseNextLink p.link) = _
    rw [htr, List.map_cons, List.flatten_cons]
  · rw [List.length_flatten, List.map_map]
    rfl

/-- C1 witness: the two-page chain service returns both pages' items. -/
theorem getPaginated_returns_all_pages_witness :
    chainServer ⟨"c", initialParams []⟩ = FetchResult.ok pageA
    ∧ chainFrom chainServer pageA [pageB]
    ∧ ([pageB].length ≤ 3)
    ∧ ((∃ tr, getPaginated chainServer "c" [] 3
          = some (Except.ok ((([pageA, pageB] : List Page).map Page.data).flatten), tr))
        ∧ ((([pageA, pageB] : List Page).map Page.data).flatten).length
            = (([pageA, pageB] : List Page).map (fun q => q.data.length)).sum) :=
  ⟨rfl, ⟨"P2", rfl, rfl, rfl⟩, by decide,
    getPaginated_returns_all_pages chainServer "c" [] 3 pageA [pageB] rfl
      ⟨"P2", rfl, rfl, rfl⟩ (by decide)⟩

/-- C5: if any page's request fails, the whole `getPaginated` run yields a
classified error and no partial item sequence: the outcome is
`Except.error`, whether the initial request or a later page's request
failed. -/
theorem getPaginated_all_or_error (server : Req → FetchResult) (path : String)
    (params : List (String × Value)) (fuel : Nat) :
    (∀ e, server ⟨path, initialParams params⟩ = FetchResult.err e →
        getPaginated server path params fuel
          = some (Except.error (handleError e), [⟨path, initialParams params⟩]))
    ∧ (∀ p ps, server ⟨path, initialParams params⟩ = FetchResult.ok p →
        failsAfter server p ps → ps.length < fuel →
        ∃ e tr, getPaginated server path params fuel
          = some (Except.error (handleError e), tr)) := by
  constructor
  · intro e he
    rw [getPaginated, he]
  · intro p ps h0 hfail hlen
    obtain ⟨e, tr, htr⟩ :=
      getPaginatedGo_fails server ps p fuel p.data [⟨path, initialParams params⟩] hfail hlen
    refine ⟨e, tr, ?_⟩
    rw [getPaginated, h0]
    exact htr

/-- C5 witness: a failing initial request and a failing second page both
produce error outcomes. -/
theorem getPaginated_all_or_error_witness :
    failServer0 ⟨"c", initialParams []⟩
        = FetchResult.err (JsThrown.axiosErr (some ⟨500, Value.vnull⟩) "")
    ∧ getPaginated failServer0 "c" [] 3
        = some (Except.error (handleError (JsThrown.axiosErr (some ⟨500, Value.vnull⟩) "")),
            [⟨"c", initialParams []⟩])
    ∧ chainFailServer ⟨"c", initialParams []⟩
        = FetchResult.ok ⟨[Value.vnum 1], some "<P2>; rel=\"next\""⟩
    ∧ failsAfter chainFailServer ⟨[Value.vnum 1], some "<P2>; rel=\"next\""⟩ []
    ∧ (([] : List Page).length < 3)
    ∧ (∃ e tr, getPaginated chainFailServer "c" [] 3
        = some (Except.error (handleError e), tr)) :=
  ⟨rfl,
    (getPaginated_all_or_error failServer0 "c" [] 3).1
      (JsThrown.axiosErr (some ⟨500, Value.vnull⟩) "") rfl,
    rfl,
    ⟨"P2", JsThrown.axiosErr none "socket hang up", rfl, rfl⟩,
    by decide,
    (getPaginated_all_or_error chainFailServer "c" [] 3).2
      ⟨[Value.vnum 1], some "<P2>; rel=\"next\""⟩ []
      rfl ⟨"P2", JsThrown.axiosErr none "socket hang up", rfl, rfl⟩ (by decide)⟩

/-- C6: the continuation reference is the capture of the link-header entry
with `rel="next"`: the spec's example header parses to its URL, a
`rel="prev"`-only or absent header yields no continuation (pagination stops
after one page), and when a continuation is present the follow-up request
is a GET to exactly that reference with no query parameters re-applied. -/
theorem parseNextLink_continuation :
    parseNextLink (some "<https://x/y?page=2>; rel=\"next\"") = some "https://x/y?page=2"
    ∧ parseNextLink (some "<https://x/y?page=1>; rel=\"prev\"") = none
    ∧ parseNextLink none = none
    ∧ (∀ (server : Req → FetchResult) (path : String) (params : List (String × Value))
        (fuel : Nat) (p : Page),
        server ⟨path, initialParams params⟩ = FetchResult.ok p →
        parseNextLink p.link = none →
        getPaginated server path params fuel
          = some (Except.ok p.data, [⟨path, initialParams params⟩]))
    ∧ (∀ (server : Req → FetchResult) (path : String) (params : List (String × Value))
        (fuel : Nat) (p : Page) (u : String) (o : Except String (List Value)) (tr : List Req),
        server ⟨path, initialParams params⟩ = FetchResult.ok p →
        parseNextLink p.link = some u →
        getPaginated server path params fuel = some (o, tr) →
        ∃ ext, tr = ⟨path, initialParams params⟩ :: ⟨u, []⟩ :: ext) := by
  refine ⟨by decide, by decide, rfl, ?_, ?_⟩
  · intro server path params fuel p h0 hn
    rw [getPaginated, h0]
    change getPaginatedGo server fuel p.data [⟨path, initialParams params⟩]
      (parseNextLink p.link) = _
    rw [hn, getPaginatedGo]
  · intro server path params fuel p u o tr h0 hu hrun
    rw [getPaginated, h0] at hrun
    change getPaginatedGo server fuel p.data [⟨path, initialParams params⟩]
      (parseNextLink p.link) = some (o, tr) at hrun
    rw [hu] at hrun
    obtain ⟨ext, hext⟩ :=
      getPaginatedGo_second server fuel p.data [⟨path, initialParams params⟩] u o tr hrun
    exact ⟨ext, by rw [hext]; rfl⟩

/-- C6 witness: a one-page service stops after one request; the two-page
service's second request targets exactly the parsed reference with no
parameters. -/
theorem parseNextLink_continuation_witness :
    oneServer ⟨"c", initialParams []⟩ = FetchResult.ok ⟨[Value.vnum 7], none⟩
    ∧ getPaginated oneServer "c" [] 3
        = some (Except.ok [Value.vnum 7], [⟨"c", initialParams []⟩])
    ∧ twoServer ⟨"c", initialParams []⟩
        = FetchResult.ok ⟨[Value.vnum 8], some "<https://x/y?page=2>; rel=\"next\""⟩
    ∧ (∃ ext, [(⟨"c", initialParams []⟩ : Req), ⟨"https://x/y?page=2", []⟩]
        = ⟨"c", initialParams []⟩ :: (⟨"https://x/y?page=2", []⟩ : Req) :: ext) :=
  ⟨rfl,
    (parseNextLink_continuation.2.2.2.1) oneServer "c" [] 3 ⟨[Value.vnum 7], none⟩ rfl rfl,
    rfl,
    (parseNextLink_continuation.2.2.2.2) twoServer "c" [] 3
      ⟨[Value.vnum 8], some "<https://x/y?page=2>; rel=\"next\""⟩ "https://x/y?page=2"
      (Except.ok [Value.vnum 8, Value.vnum 9])
      [⟨"c", initialParams []⟩, ⟨"https://x/y?page=2", []⟩] rfl (by decide) rfl⟩

/-- C8: the initial paginated request carries `per_page = 100` merged under
the caller's parameters: the trace's first request uses exactly the merged
record, every caller-supplied pair is retrievable from it unchanged (so a
caller value — including an explicit `per_page` — takes precedence and is
never dropped), and the default `100` appears exactly when the caller gave
no `per_page`. -/
theorem getPaginated_initial_params (server : Req → FetchResult) (path : String)
    (params : List (String × Value)) (fuel : Nat) (o : Except String (List Value)) (tr : List Req)
    (hnd : (params.map Prod.fst).Nodup)
    (hrun : getPaginated server path params fuel = some (o, tr)) :
    tr.head? = some ⟨path, initialParams params⟩
    ∧ (∀ k v, (k, v) ∈ params → lookupKey (initialParams params) k = some v)
    ∧ (lookupKey params "per_page" = none →
        lookupKey (initialParams params) "per_page" = some (Value.vnum 100)) := by
  refine ⟨?_, ?_, ?_⟩
  · cases h0 : server ⟨path, initialParams params⟩ with
    | err e =>
      rw [getPaginated, h0] at hrun
      change some (Except.error (handleError e), [⟨path, initialParams params⟩])
        = some (o, tr) at hrun
      have h2 : tr = [⟨path, initialParams params⟩] := by
        simpa using (congrArg Prod.snd (Option.some.inj hrun)).symm
      rw [h2]; rfl
    | ok p =>
      rw [getPaginated, h0] at hrun
      change getPaginatedGo server fuel p.data [⟨path, initialParams params⟩]
        (parseNextLink p.link) = some (o, tr) at hrun
      obtain ⟨ext, hext⟩ := getPaginatedGo_extends server fuel _ _ _ o tr hrun
      rw [hext]; rfl
  · intro k v hkv
    exact lookupKey_spreadInto_mem params [("per_page", Value.vnum 100)] k v hkv hnd
  · intro hnone
    have hmem : "per_page" ∉ params.map Prod.fst :=
      (lookupKey_eq_none_iff params "per_page").mp hnone
    rw [show initialParams params = spreadInto [("per_page", Value.vnum 100)] params from rfl,
      lookupKey_spreadInto_notmem params _ "per_page" hmem]
    rfl

/-- C8 witness: with an explicit `per_page` and an ordinary key, the merged
initial request preserves both caller values. -/
theorem getPaginated_initial_params_witness :
    (mergeParams.map Prod.fst).Nodup
    ∧ getPaginated oneServer "c" mergeParams 0
        = some (Except.ok [Value.vnum 7], [⟨"c", initialParams mergeParams⟩])
    ∧ (([(⟨"c", initialParams mergeParams⟩ : Req)] : List Req).head?
          = some ⟨"c", initialParams mergeParams⟩
        ∧ (∀ k v, (k, v) ∈ mergeParams → lookupKey (initialParams mergeParams) k = some v)
        ∧ (lookupKey mergeParams "per_page" = none →
            lookupKey (initialParams mergeParams) "per_page" = some (Value.vnum 100))) :=
  ⟨by decide, rfl,
    getPaginated_initial_params oneServer "c" mergeParams 0
      (Except.ok [Value.vnum 7]) [⟨"c", initialParams mergeParams⟩] (by decide) rfl⟩

theorem handleError_generic (s : Nat) (d : Value) (m : String)
    (h1 : s ≠ 401) (h2 : s ≠ 403) (h3 : s ≠ 404) (h4 : s ≠ 429) :
    handleError (JsThrown.axiosErr (some ⟨s, d⟩) m)
      = "Canvas API error " ++ Nat.repr s ++ ": " ++ stringify d := by
  show (if (some s = some 401) then unauthorizedMsg
      else if (some s = some 403) then forbiddenMsg
      else if (some s = some 404) then notFoundMsg
      else if (some s = some 429) then rateLimitedMsg
      else "Canvas API error " ++ statusText (some s) ++ ": " ++ dataText (some d)) = _
  rw [if_neg (by simp [h1]), if_neg (by simp [h2]), if_neg (by simp [h3]), if_neg (by simp [h4])]
  rfl

/-- C4: a failure carrying an HTTP response is classified by status —
401, 403, 404 and 429 map to exactly the four fixed human-readable
messages, and every other status maps to
`"Canvas API error <status>: <body>"`, containing the numeric status and
the `JSON.stringify` serialization of the response body. -/
theorem handleError_status_taxonomy :
    (∀ (d : Value) (m : String),
        handleError (JsThrown.axiosErr (some ⟨401, d⟩) m) = unauthorizedMsg)
    ∧ (∀ (d : Value) (m : String),
        handleError (JsThrown.axiosErr (some ⟨403, d⟩) m) = forbiddenMsg)
    ∧ (∀ (d : Value) (m : String),
        handleError (JsThrown.axiosErr (some ⟨404, d⟩) m) = notFoundMsg)
    ∧ (∀ (d : Value) (m : String),
        handleError (JsThrown.axiosErr (some ⟨429, d⟩) m) = rateLimitedMsg)
    ∧ (∀ (s : Nat) (d : Value) (m : String), s ≠ 401 → s ≠ 403 → s ≠ 404 → s ≠ 429 →
        handleError (JsThrown.axiosErr (some ⟨s, d⟩) m)
          = "Canvas API error " ++ Nat.repr s ++ ": " ++ stringify d) :=
  ⟨fun _ _ => rfl, fun _ _ => rfl, fun _ _ => rfl, fun _ _ => rfl, handleError_generic⟩

/-- C4 witness: status 500 with a string body yields the generic formatted
message. -/
theorem handleError_status_taxonomy_witness :
    ((500 : Nat) ≠ 401 ∧ (500 : Nat) ≠ 403 ∧ (500 : Nat) ≠ 404 ∧ (500 : Nat) ≠ 429)
    ∧ handleError (JsThrown.axiosErr (some ⟨500, Value.vstr "oops"⟩) "")
        = "Canvas API error " ++ Nat.repr 500 ++ ": " ++ stringify (Value.vstr "oops") :=
  ⟨⟨by decide, by decide, by decide, by decide⟩,
    handleError_status_taxonomy.2.2.2.2 500 (Value.vstr "oops") ""
      (by decide) (by decide) (by decide) (by decide)⟩

/-- C2 counterexample: an axios transport failure (no response) does not
carry the underlying failure's message — the classifier produces the fixed
string `"Canvas API error undefined: undefined"` instead. -/
theorem handleError_transport_cex :
    handleError (JsThrown.axiosErr none "connect ECONNREFUSED 127.0.0.1:443")
        = "Canvas API error undefined: undefined"
    ∧ handleError (JsThrown.axiosErr none "connect ECONNREFUSED 127.0.0.1:443")
        ≠ "connect ECONNREFUSED 127.0.0.1:443" :=
  ⟨rfl, by decide⟩

/-- C2 (amended): every failure carrying no HTTP response classifies
differently from every failure carrying one — but the axios no-response
case yields the fixed message `"Canvas API error undefined: undefined"`
rather than the underlying failure's message; only a non-axios `Error`
failure keeps its own message. -/
theorem handleError_no_response (s : Nat) (d : Value) (m mh mj : String) :
    handleError (JsThrown.axiosErr none m) = "Canvas API error undefined: undefined"
    ∧ handleError (JsThrown.axiosErr none m) ≠ handleError (JsThrown.axiosErr (some ⟨s, d⟩) mh)
    ∧ handleError (JsThrown.jsError mj) = mj := by
  refine ⟨rfl, ?_, rfl⟩
  have hfix : handleError (JsThrown.axiosErr none m)
      = "Canvas API error undefined: undefined" := rfl
  by_cases h1 : s = 401
  · subst h1
    rw [hfix, show handleError (JsThrown.axiosErr (some ⟨401, d⟩) mh)
      = unauthorizedMsg from rfl]
    decide
  by_cases h2 : s = 403
  · subst h2
    rw [hfix, show handleError (JsThrown.axiosErr (some ⟨403, d⟩) mh)
      = forbiddenMsg from rfl]
    decide
  by_cases h3 : s = 404
  · subst h3
    rw [hfix, show handleError (JsThrown.axiosErr (some ⟨404, d⟩) mh)
      = notFoundMsg from rfl]
    decide
  by_cases h4 : s = 429
  · subst h4
    rw [hfix, show handleError (JsThrown.axiosErr (some ⟨429, d⟩) mh)
      = rateLimitedMsg from rfl]
    decide
  intro heq
  rw [hfix, handleError_generic s d mh h1 h2 h3 h4] at heq
  have hd := congrArg String.data heq
  rw [str_append_data, str_append_data, str_append_data, List.append_assoc,
    List.append_assoc] at hd
  have hpre : ("Canvas API error undefined: undefined").data
      = ("Canvas API error ").data ++ ("undefined: undefined").data := by decide
  rw [hpre] at hd
  have htail := List.append_cancel_left hd
  cases hrs : (Nat.repr s).data with
  | nil => exact repr_data_ne_nil s hrs
  | cons c t =>
    rw [hrs] at htail
    have hhu : ("undefined: undefined").data.head? = some 'u' := rfl
    have hc : 'u' = c := by
      have hh := congrArg List.head? htail
      rw [hhu] at hh
      simpa using hh
    have hdig : c.isDigit = true := repr_head_digit s c (by rw [hrs]; rfl)
    rw [← hc] at hdig
    exact absurd hdig (by decide)

/-- C3 (spec-modelled): `downloadFile` writes the fetched bytes to the
destination path — creating or overwriting whatever was there — leaves
every other path untouched, and propagates any failure through the same
error classification as ordinary requests. -/
theorem downloadFile_spec :
    (∀ (server : String → Except JsThrown (List Nat)) (fs : FS) (url dest : String)
        (bytes : List Nat), server url = Except.ok bytes →
        ∃ fs', downloadFile server fs url dest = Except.ok fs'
          ∧ fs' dest = some bytes ∧ ∀ p, p ≠ dest → fs' p = fs p)
    ∧ (∀ (server : String → Except JsThrown (List Nat)) (fs : FS) (url dest : String)
        (e : JsThrown), server url = Except.error e →
        downloadFile server fs url dest = Except.error (handleError e)) := by
  constructor
  · intro server fs url dest bytes h
    refine ⟨fun p => if p = dest then some bytes else fs p, ?_, ?_, ?_⟩
    · rw [downloadFile, h]
    · simp
    · intro p hp; simp [hp]
  · intro server fs url dest e h
    rw [downloadFile, h]

/-- C3 witness: a five-byte download lands at the destination and a 404
propagates through the classifier. -/
theorem downloadFile_spec_witness :
    dlServerOk "https://files/1" = Except.ok [1, 2, 3, 4, 5]
    ∧ (∃ fs', downloadFile dlServerOk dlFs "https://files/1" "/tmp/dest" = Except.ok fs'
        ∧ fs' "/tmp/dest" = some [1, 2, 3, 4, 5]
        ∧ ∀ p, p ≠ "/tmp/dest" → fs' p = dlFs p)
    ∧ dlServerBad "https://files/1"
        = Except.error (JsThrown.axiosErr (some ⟨404, Value.vnull⟩) "")
    ∧ downloadFile dlServerBad dlFs "https://files/1" "/tmp/dest"
        = Except.error (handleError (JsThrown.axiosErr (some ⟨404, Value.vnull⟩) "")) :=
  ⟨rfl,
    downloadFile_spec.1 dlServerOk dlFs "https://files/1" "/tmp/dest" [1, 2, 3, 4, 5] rfl,
    rfl,
    downloadFile_spec.2 dlServerBad dlFs "https://files/1" "/tmp/dest"
      (JsThrown.axiosErr (some ⟨404, Value.vnull⟩) "") rfl⟩

/-- C7: `uploadFile` issues exactly one POST, directly to the upload URL:
the multipart fields are the parameter entries in mapping order followed by
the file content as the final field (field name `file`, the file's base
name as the attached filename), the request carries no `Authorization`
header, redirects are not followed (`maxRedirects = 0`), any status below
400 — a redirect included — resolves with the parsed body, and any status
of 400 or above classifies as an error. -/
theorem uploadFile_single_post :
    (∀ (url : String) (ps : List (String × String)) (fp c : String),
        (uploadReq url ps fp c).url = url
        ∧ (uploadReq url ps fp c).fields
            = ps.map (fun kv => PartField.mk kv.1 kv.2 none)
              ++ [⟨"file", c, some (basename fp)⟩]
        ∧ lookupKey (uploadReq url ps fp c).headers "Authorization" = none
        ∧ (uploadReq url ps fp c).maxRedirects = 0)
    ∧ (∀ (server : PostReq → PostOutcome) (url : String) (ps : List (String × String))
        (fp c : String), (uploadFile server url ps fp c).2 = [uploadReq url ps fp c])
    ∧ (∀ (server : PostReq → PostOutcome) (url : String) (ps : List (String × String))
        (fp c : String) (status : Nat) (data : Value),
        server (uploadReq url ps fp c) = PostOutcome.response status data → status < 400 →
        (uploadFile server url ps fp c).1 = Except.ok data)
    ∧ (∀ (server : PostReq → PostOutcome) (url : String) (ps : List (String × String))
        (fp c : String) (status : Nat) (data : Value),
        server (uploadReq url ps fp c) = PostOutcome.response status data → 400 ≤ status →
        (uploadFile server url ps fp c).1
          = Except.error (handleError (JsThrown.axiosErr (some ⟨status, data⟩) ""))) := by
  refine ⟨?_, ?_, ?_, ?_⟩
  · intro url ps fp c
    refine ⟨rfl, ?_, rfl, rfl⟩
    show uploadForm ps fp c = _
    rw [uploadForm, appendFields_eq_map]
    simp
  · intro server url ps fp c
    cases hs : server (uploadReq url ps fp c) with
    | netFail m => rw [uploadFile, hs]
    | response st d =>
      rw [uploadFile, hs]
      change (if st < 400 then (Except.ok d, [uploadReq url ps fp c])
          else (Except.error (handleError (JsThrown.axiosErr (some ⟨st, d⟩) "")),
            [uploadReq url ps fp c])).2 = _
      by_cases h : st < 400
      · rw [if_pos h]
      · rw [if_neg h]
  · intro server url ps fp c status data hs hlt
    rw [uploadFile, hs]
    change (if status < 400 then (Except.ok data, [uploadReq url ps fp c])
        else (Except.error (handleError (JsThrown.axiosErr (some ⟨status, data⟩) "")),
          [uploadReq url ps fp c])).1 = _
    rw [if_pos hlt]
  · intro server url ps fp c status data hs hge
    rw [uploadFile, hs]
    change (if status < 400 then (Except.ok data, [uploadReq url ps fp c])
        else (Except.error (handleError (JsThrown.axiosErr (some ⟨status, data⟩) "")),
          [uploadReq url ps fp c])).1 = _
    rw [if_neg (by omega)]

/-- C7 witness: the 303 success answer resolves with the body, the 422
answer classifies as an error. -/
theorem uploadFile_single_post_witness :
    upServerOk (uploadReq "U" [("k1", "a"), ("k2", "b")] "/tmp/x/f.txt" "hello")
        = PostOutcome.response 303 (Value.vstr "created")
    ∧ (303 : Nat) < 400
    ∧ (uploadFile upServerOk "U" [("k1", "a"), ("k2", "b")] "/tmp/x/f.txt" "hello").1
        = Except.ok (Value.vstr "created")
    ∧ upServerBad (uploadReq "U" [] "f" "x") = PostOutcome.response 422 (Value.vstr "bad")
    ∧ (400 : Nat) ≤ 422
    ∧ (uploadFile upServerBad "U" [] "f" "x").1
        = Except.error (handleError (JsThrown.axiosErr (some ⟨422, Value.vstr "bad"⟩) "")) :=
  ⟨rfl, by decide,
    uploadFile_single_post.2.2.1 upServerOk "U" [("k1", "a"), ("k2", "b")] "/tmp/x/f.txt"
      "hello" 303 (Value.vstr "created") rfl (by decide),
    rfl, by decide,
    uploadFile_single_post.2.2.2 upServerBad "U" [] "f" "x" 422 (Value.vstr "bad")
      rfl (by decide)⟩

/-- C9 counterexample: an environment in which both required variables are
present, the token being the empty string, still fails construction —
refuting "when both are present construction succeeds". -/
theorem constructClient_present_empty_cex :
    (envEmptyTok "CANVAS_API_TOKEN").isSome = true
    ∧ (envEmptyTok "CANVAS_BASE_URL").isSome = true
    ∧ constructClient envEmptyTok = Except.error configErrMsg :=
  ⟨rfl, rfl, rfl⟩

/-- C9 (amended): absence of either required environment variable makes
construction fail with the fatal configuration error (the constructor
performs no network request), and when both are present with non-empty
values construction succeeds, capturing the base URL and the bearer-token
authorization header that the created transport attaches to every
request. -/
theorem constructClient_spec :
    (∀ env : EnvMap, env "CANVAS_API_TOKEN" = none ∨ env "CANVAS_BASE_URL" = none →
        constructClient env = Except.error configErrMsg)
    ∧ (∀ (env : EnvMap) (t b : String), env "CANVAS_API_TOKEN" = some t →
        env "CANVAS_BASE_URL" = some b → t ≠ "" → b ≠ "" →
        constructClient env = Except.ok ⟨b, "Bearer " ++ t⟩) := by
  constructor
  · intro env h
    rcases h with h | h
    · rw [constructClient, h]; rfl
    · rw [constructClient, h]
      rw [show falsyStr none = true from rfl, Bool.or_true]
      rfl
  · intro env t b h1 h2 ht hb
    rw [constructClient, h1, h2]
    rw [show falsyStr (some t) = false from by simp [falsyStr, ht],
      show falsyStr (some b) = false from by simp [falsyStr, hb]]
    rfl

/-- C9 witness: a missing token fails construction; a fully populated
environment succeeds with the bearer header. -/
theorem constructClient_spec_witness :
    envMissing "CANVAS_API_TOKEN" = none
    ∧ constructClient envMissing = Except.error configErrMsg
    ∧ envGood "CANVAS_API_TOKEN" = some "tok123"
    ∧ envGood "CANVAS_BASE_URL" = some "https://c.example"
    ∧ ("tok123" : String) ≠ ""
    ∧ ("https://c.example" : String) ≠ ""
    ∧ constructClient envGood = Except.ok ⟨"https://c.example", "Bearer " ++ "tok123"⟩ :=
  ⟨rfl, constructClient_spec.1 envMissing (Or.inl rfl), rfl, rfl, by decide, by decide,
    constructClient_spec.2 envGood "tok123" "https://c.example" rfl rfl
      (by decide) (by decide)⟩

/-- C10: an empty-string value of either required environment variable is
treated like an absent one — construction throws the same fatal
configuration error instead of creating a client. -/
theorem constructClient_empty_is_absent (env : EnvMap)
    (h : env "CANVAS_API_TOKEN" = some "" ∨ env "CANVAS_BASE_URL" = some "") :
    constructClient env = Except.error configErrMsg := by
  rcases h with h | h
  · rw [constructClient, h]; rfl
  · rw [constructClient, h]
    rw [show falsyStr (some "") = true from rfl, Bool.or_true]
    rfl

/-- C10 witness: an empty base URL (with a good token) fails
construction. -/
theorem constructClient_empty_is_absent_witness :
    envEmptyBase "CANVAS_BASE_URL" = some ""
    ∧ constructClient envEmptyBase = Except.error configErrMsg :=
  ⟨rfl, constructClient_empty_is_absent envEmptyBase (Or.inr rfl)⟩

end CanvasMCP
